import Mathlib

/-!
# Verification of the 5log-sdk client logging library

Shallow embedding of `src/libs/logging.ts` (the `filog` class: `write`,
`_write`, the dynamically installed level methods) and of
`src/libs/httpClient.ts` (`HttpClient.send`), together with theorems about
the transport-selection, payload-normalization and dispatch behaviour.

JavaScript semantics that matter here are made explicit:
* `undefined` values are `Option.none`;
* truthiness of strings ("" is falsy) and of numbers (0 is falsy);
* property access on `undefined` throws a `TypeError`, modelled with
  `Except`/a `threw` field;
* the external stack-trace parser (`stacktrace-parser`) is a parameter
  `parse : String → List StackFrame`; calling it on `undefined` throws.
-/

namespace Filog

/-! ## JavaScript string helpers -/

/-- The whitespace class used by JavaScript `\s` and `trimEnd`. -/
def jsIsWs (c : Char) : Bool :=
  c == ' ' || c == '\t' || c == '\n' || c == '\r' || c == '\u000B' || c == '\u000C' ||
  c == '\u00A0' || c == '\u1680' || c == '\u2028' || c == '\u2029' || c == '\u202F' ||
  c == '\u205F' || c == '\u3000' || c == '\uFEFF' ||
  (decide (0x2000 ≤ c.toNat) && decide (c.toNat ≤ 0x200A))

def jsTrimEndL (cs : List Char) : List Char :=
  (cs.reverse.dropWhile jsIsWs).reverse

/-- JavaScript trimEnd. -/
def jsTrimEnd (s : String) : String :=
  ⟨jsTrimEndL s.data⟩

/-- Test whether `s` starts with `p` (exact characters). -/
def startsWithStr (p s : String) : Bool :=
  p.data.isPrefixOf s.data

/-- Characters of `s`, lower-cased (for case-insensitive regex tests). -/
def lowerData (s : String) : List Char :=
  s.data.map Char.toLower

/-- Test whether `s` starts with `p`, compared case-insensitively. -/
def startsWithCI (p s : String) : Bool :=
  (lowerData p).isPrefixOf (lowerData s)

/-- JavaScript toUpperCase (ASCII, which covers the inputs used). -/
def jsToUpper (s : String) : String :=
  ⟨s.data.map Char.toUpper⟩

/-- JavaScript falsiness for an optional string (`undefined` and `""`). -/
def jsFalsyOptStr : Option String → Bool
  | none => true
  | some s => s == ""

/-- JavaScript `a || b` for an optional string against a string default. -/
def jsOrStr (o : Option String) (d : String) : String :=
  match o with
  | some s => if s == "" then d else s
  | none => d

/-! ## Regular-expression tests from `logging.ts`

`write` tests the destination URL with
`/^https?:\/\/[^\s\/$.?#].[^\s]*$/gi` and `/^amqps?:\/\/[^\s\/$.?#].[^\s]*$/gi`,
and filters stack frames with `/^file:/gi`, `/\.[ts|js|jsx|tsx|esm|cjs]+$/gi`
and an exact `<anonymous>` comparison. -/

/-- Line terminators, which `.` in a JavaScript regex does not match. -/
def isLineTerm (c : Char) : Bool :=
  c == '\n' || c == '\r' || c == '\u2028' || c == '\u2029'

/-- The negated character class `[^\s\/$.?#]` of the URL regexes. -/
def urlFirstCharBad (c : Char) : Bool :=
  jsIsWs c || c == '/' || c == '$' || c == '.' || c == '?' || c == '#'

/-- The part of the URL regexes after the scheme: `[^\s\/$.?#].[^\s]*$`. -/
def urlTailOk : List Char → Bool
  | c1 :: c2 :: rest =>
    !(urlFirstCharBad c1) && !(isLineTerm c2) && rest.all (fun c => !(jsIsWs c))
  | _ => false

/-- Test of `/^https?:\/\/[^\s\/$.?#].[^\s]*$/gi` on a url (line 193 of logging.ts). -/
def httpUrlTest (s : String) : Bool :=
  if startsWithCI "https://" s then urlTailOk (s.data.drop 8)
  else if startsWithCI "http://" s then urlTailOk (s.data.drop 7)
  else false

/-- Test of `/^amqps?:\/\/[^\s\/$.?#].[^\s]*$/gi` on a url (line 197 of logging.ts). -/
def amqpUrlTest (s : String) : Bool :=
  if startsWithCI "amqps://" s then urlTailOk (s.data.drop 8)
  else if startsWithCI "amqp://" s then urlTailOk (s.data.drop 7)
  else false

/-- Membership in the character class `[ts|js|jsx|tsx|esm|cjs]` with the `i`
flag, i.e. the set of characters t s | j x e m c in either case. -/
def extClassChar (c : Char) : Bool :=
  let l := c.toLower
  l == 't' || l == 's' || l == '|' || l == 'j' || l == 'x' || l == 'e' || l == 'm' || l == 'c'

/-- Test of `/\.[ts|js|jsx|tsx|esm|cjs]+$/gi` on the character list: the regex
matches if at some position there is a `.` followed by one or more class
characters running to the end of the string. -/
def extTest : List Char → Bool
  | [] => false
  | c :: rest => (c == '.' && !rest.isEmpty && rest.all extClassChar) || extTest rest

/-- The stack-frame file filter of `write` (line 179 of logging.ts):
`/^file:/gi` or `/\.[ts|js|jsx|tsx|esm|cjs]+$/gi` or the literal
`<anonymous>`. -/
def keepFile (file : String) : Bool :=
  startsWithCI "file:" file || extTest file.data || file == "<anonymous>"

/-! ## Data model -/

/-- Shape of the `source` object of the init arguments and payload. -/
structure Source where
  app_name : Option String := none
  app_version : Option String := none
  package_name : Option String := none
deriving DecidableEq

/-- A JavaScript `Error` value: `name`, `message`, and optional `stack`. -/
structure JsError where
  name : String
  message : String
  stack : Option String := none
deriving DecidableEq

/-- The `errorDescription` field: either a plain string or an `Error`. -/
inductive ErrDesc
  | strD (s : String)
  | errD (e : JsError)
deriving DecidableEq

/-- The `ErrorPayload` handed to `write`; absent fields are `none`. -/
structure ErrorPayload where
  logLevel : String
  logTicket : Option String := none
  errorDescription : Option ErrDesc := none
  eventCode : Option String := none
  environment : Option String := none
  source : Option Source := none
deriving DecidableEq

/-- The `WriteOptions` second argument of `write`. -/
structure WriteOptions where
  verbose : String := "undefined"
  originalError : Option JsError := none
deriving DecidableEq

/-- One transport descriptor `FilogInitObject`. -/
structure FilogInitObject where
  client_id : String
  url : String
  logType : String
deriving DecidableEq

/-- The constructor arguments `FilogInitArguments`. -/
structure FilogInitArguments where
  source : Option Source := none
  environment : Option String := none
  transports : Option (List FilogInitObject) := none
deriving DecidableEq

/-- A stack frame as produced by the external `stacktrace-parser`. -/
structure StackFrame where
  file : String
  methodName : String
  lineNumber : Option Int := none
  column : Option Int := none
deriving DecidableEq

def keepFrame (f : StackFrame) : Bool := keepFile f.file

/-- The state built by `HttpClient`'s constructor `(target, auth)`:
`this.auth = auth; this.target = target` (httpClient.ts lines 13-22). -/
structure HttpClientState where
  auth : String
  target : String
deriving DecidableEq

/-- Constructor call `new HttpClient(a, b)`. -/
def mkHttpClient (target : String) (auth : String) : HttpClientState :=
  { auth := auth, target := target }

/-- Url of the POST issued by `send`: `this.target` (httpClient.ts line 27). -/
def httpRequestUrl (c : HttpClientState) : String := c.target

/-- A network dispatch made by `write`: either `connector.send(error)` on a
freshly constructed `HttpClient`, or `publishLog(url, error)`. -/
inductive Dispatch
  | http (client : HttpClientState) (payload : ErrorPayload)
  | queue (url : String) (payload : ErrorPayload)
deriving DecidableEq

/-- The payload carried by a dispatch. -/
def descOfDispatch : Dispatch → Option ErrDesc
  | .http _ p => p.errorDescription
  | .queue _ p => p.errorDescription

/-- Observable result of one `write` call: local console messages, network
dispatches, and whether a `TypeError` escaped. -/
structure WriteResult where
  msgs : List String
  dispatches : List Dispatch
  threw : Option String
deriving DecidableEq

/-! ## The `write` pipeline (logging.ts lines 153-200) -/

/-- Truthiness of `error.errorDescription`. -/
def descTruthy : Option ErrDesc → Bool
  | none => false
  | some (.strD s) => !(s == "")
  | some (.errD _) => true

/-- Check `error.errorDescription instanceof Error`. -/
def isErrDesc : Option ErrDesc → Bool
  | some (.errD _) => true
  | _ => false

/-- Value of `error.errorDescription.stack`: `undefined` (`none`) when the
description is a plain string, since strings have no `stack` property. -/
def descStackJs : Option ErrDesc → Option String
  | some (.errD e) => e.stack
  | _ => none

/-- Value of `error.errorDescription.name` under JavaScript semantics. -/
def descNameJs : Option ErrDesc → String
  | some (.errD e) => e.name
  | _ => "undefined"

/-- Value of `error.errorDescription.message` under JavaScript semantics. -/
def descMessageJs : Option ErrDesc → String
  | some (.errD e) => e.message
  | _ => "undefined"

/-- Value of `originalError.stack`. -/
def origStack : Option JsError → Option String
  | some o => o.stack
  | none => none

/-- One output line per surviving stack frame (line 184 of logging.ts):
`"\xa0\xa0\xa0[" + methodName + "] " + file` plus `:line` and `:col` when
those numbers are truthy, then a newline. -/
def frameLine (f : StackFrame) : String :=
  "   [" ++ f.methodName ++ "] " ++ f.file ++
    (match f.lineNumber with
      | some n => if n == 0 then "" else ":" ++ toString n
      | none => "") ++
    (match f.column with
      | some n => if n == 0 then "" else ":" ++ toString n
      | none => "") ++ "\n"

/-- The accumulation of `_errorDescription` (lines 181-185): header
`name + ": " + message + "\n"`, then `forEach` appending one line per frame
of the (already filtered) stack. -/
def rawDescription (nm ms : String) (frames : List StackFrame) : String :=
  frames.foldl (fun acc f => acc ++ frameLine f) (nm ++ ": " ++ ms ++ "\n")

/-- Plain concatenation of the frame lines, used to state theorems about
`rawDescription`. -/
def concatLines : List StackFrame → String
  | [] => ""
  | f :: r => frameLine f ++ concatLines r

/-- The normalization step (lines 173-190). Returns the updated payload and
the `_errorDescription` string used for the verbose echo, or the thrown
`TypeError` when the stack to parse is `undefined`. -/
def normalizeStep (parse : String → List StackFrame) (e : ErrorPayload)
    (orig : Option JsError) : Except String (ErrorPayload × String) :=
  if isErrDesc e.errorDescription || orig.isSome then
    let stackOpt :=
      if descTruthy e.errorDescription then descStackJs e.errorDescription else origStack orig
    match stackOpt with
    | none => .error "TypeError: cannot read properties of undefined while parsing stack"
    | some st =>
      let frames := (parse st).filter keepFrame
      let nm :=
        if descTruthy e.errorDescription then descNameJs e.errorDescription
        else (match orig with | some o => o.name | none => "undefined")
      let ms :=
        if descTruthy e.errorDescription then descMessageJs e.errorDescription
        else (match orig with | some o => o.message | none => "undefined")
      let raw := rawDescription nm ms frames
      .ok ({ e with errorDescription := some (.strD (jsTrimEnd raw)) }, raw)
  else
    .ok (e, match e.errorDescription with | some (.strD s) => s | _ => "undefined")

/-- Backfill of `source` and `environment` from the init arguments
(lines 165-170), with JavaScript truthiness on both sides. -/
def backfill (args : FilogInitArguments) (e : ErrorPayload) : ErrorPayload :=
  let e1 := if e.source.isNone && args.source.isSome then { e with source := args.source } else e
  if jsFalsyOptStr e1.environment && !(jsFalsyOptStr args.environment) then
    { e1 with environment := args.environment }
  else e1

/-- Transport selection (lines 160-163): filter on `logType === logLevel`,
falling back to `logType.toUpperCase() === 'ANY'` when empty. -/
def selectTransports (ts : List FilogInitObject) (level : String) : List FilogInitObject :=
  let t1 := ts.filter (fun f => f.logType == level)
  if t1.isEmpty then ts.filter (fun f => jsToUpper f.logType == "ANY") else t1

/-- The two scheme-dispatch conditionals (lines 193-199). Note the
`HttpClient` is constructed as `new HttpClient(client_id, url)`. -/
def dispatchStep (t : FilogInitObject) (p : ErrorPayload) : List Dispatch :=
  (if httpUrlTest t.url then [Dispatch.http (mkHttpClient t.client_id t.url) p] else []) ++
  (if amqpUrlTest t.url then [Dispatch.queue t.url p] else [])

/-- The local diagnostic printed when `this.args.transports` is absent. -/
def noTransportMsg : String :=
  "--> Cannot send any logs to server: Transport not specified <--"

/-- The `write` method (lines 153-200). `parse` is the external
`stacktrace-parser`. -/
def writeModel (parse : String → List StackFrame) (args : FilogInitArguments)
    (e : ErrorPayload) (opts : WriteOptions) : WriteResult :=
  match args.transports with
  | none => { msgs := [noTransportMsg], dispatches := [], threw := none }
  | some ts =>
    let transport := selectTransports ts e.logLevel
    let e2 := backfill args e
    match normalizeStep parse e2 opts.originalError with
    | .error r => { msgs := [], dispatches := [], threw := some r }
    | .ok (e3, rawD) =>
      let msgs := if opts.verbose == "true" then [rawD] else []
      match transport with
      | [] => { msgs := msgs, dispatches := [], threw := some "TypeError: cannot read url of undefined" }
      | t :: _ => { msgs := msgs, dispatches := dispatchStep t e3, threw := none }

/-! ## The level methods and `_write` (logging.ts lines 93-132) -/

/-- Shape of `CustomErrorPayload`, the optional user-supplied payload object. -/
structure CustomErrorPayload where
  logTicket : Option String := none
  errorDescription : Option ErrDesc := none
  eventCode : Option String := none
  environment : Option String := none
  source : Option Source := none
deriving DecidableEq

/-- Check `Object.entries(payload).length === 0`. -/
def entriesEmpty (p : CustomErrorPayload) : Bool :=
  p.logTicket.isNone && p.errorDescription.isNone && p.eventCode.isNone &&
  p.environment.isNone && p.source.isNone

/-- Options object `LoggingOptions` of the level methods. -/
structure LoggingOptions where
  eventCode : Option String := none
  printOut : Option Bool := none
  payload : Option CustomErrorPayload := none

/-- Conversion `String(printOut)` for `printOut : boolean | undefined`. -/
def strOfPrintOut : Option Bool → String
  | some true => "true"
  | some false => "false"
  | none => "undefined"

/-- The private `_write` (lines 107-132): build the default payload (with a
fresh `logTicket` from `Crypto.randomUUID`, here the `uuid` argument) when
none or an empty one is supplied, then call `write` with
`{logLevel, ...payload}` and `{verbose: String(printOut), originalError: error}`. -/
def writePrivate (parse : String → List StackFrame) (args : FilogInitArguments)
    (logLevel : String) (err : JsError) (eventCode : String)
    (printOut : Option Bool) (payload : Option CustomErrorPayload) (uuid : String) :
    WriteResult :=
  let fp : ErrorPayload :=
    match payload with
    | some p =>
      if entriesEmpty p then
        { logLevel := logLevel, logTicket := some uuid,
          errorDescription := some (.errD err), eventCode := some eventCode,
          environment := args.environment, source := args.source }
      else
        { logLevel := logLevel, logTicket := p.logTicket,
          errorDescription := p.errorDescription, eventCode := p.eventCode,
          environment := p.environment, source := p.source }
    | none =>
      { logLevel := logLevel, logTicket := some uuid,
        errorDescription := some (.errD err), eventCode := some eventCode,
        environment := args.environment, source := args.source }
  writeModel parse args fp
    { verbose := strOfPrintOut printOut, originalError := some err }

/-- A dynamically installed level method (lines 93-103): `logLevel` is the
method name upper-cased, `eventCode` is `options?.eventCode || error.name`. -/
def levelMethodModel (parse : String → List StackFrame) (args : FilogInitArguments)
    (name : String) (err : JsError) (o : Option LoggingOptions) (uuid : String) :
    WriteResult :=
  writePrivate parse args (jsToUpper name) err
    (jsOrStr (o.bind (·.eventCode)) err.name)
    (o.bind (·.printOut)) (o.bind (·.payload)) uuid

/-! ## `HttpClient.send` (httpClient.ts lines 24-66) -/

/-- The `extensions` object of a GraphQL-style error. -/
structure Extensions where
  code : Option String := none
  stacktrace : Option (List String) := none
deriving DecidableEq

/-- One element of a GraphQL-style `errors` array. -/
structure GqlErr where
  message : Option String := none
  locations : Option (List String) := none
  extensions : Option Extensions := none
deriving DecidableEq

/-- Shape of `response.data` as inspected by `send`. -/
structure RespData where
  errors : Option (List GqlErr) := none
  code : Option String := none
deriving DecidableEq

/-- An axios rejection value: `code`, `message`, `config.url` and the
optional `response` (absent for e.g. timeouts). `response` collapses to its
`data`. -/
structure AxErr where
  code : Option String := none
  message : String := ""
  configUrl : String := ""
  response : Option RespData := none
deriving DecidableEq

/-- Outcome of the underlying HTTP attempt. -/
inductive HttpOutcome
  | fulfilled (data : RespData)
  | failed (e : AxErr)

/-- Which `hasOwnProperty` checks the outgoing payload satisfies. -/
structure SendPayload where
  hasQuery : Bool
  hasVariables : Bool

/-- Body of a locally reported `FilogError`. -/
inductive ReportBody
  | gqlBody (message : Option String) (ext : Extensions)
  | apiErr (e : GqlErr)
  | rawData (d : RespData)
deriving DecidableEq

/-- A local console report made by `send`. -/
inductive SendEvent
  | filogReport (message : String) (code : Option String) (body : ReportBody)
  | connRefusedLog (url : String)
deriving DecidableEq

/-- Result of `send`: local reports, and whether the returned promise
rejected (an exception escaped to the caller). -/
structure SendResult where
  events : List SendEvent
  rejected : Option String
deriving DecidableEq

/-- The path through the catch handler that reads `errors[0]`, deletes
`locations` and `extensions.stacktrace`, and reports (lines 56-63). -/
def errorsPath (e : AxErr) (rd : RespData) : SendResult :=
  match rd.errors with
  | none => { events := [], rejected := some "TypeError: cannot index undefined" }
  | some [] => { events := [], rejected := some "TypeError: delete on undefined" }
  | some (g :: _) =>
    match g.extensions with
    | none => { events := [], rejected := some "TypeError: delete on undefined extensions" }
    | some ext =>
      { events := [.filogReport e.message rd.code
          (.apiErr { g with locations := none, extensions := some { ext with stacktrace := none } })],
        rejected := none }

/-- The `.catch` handler of `send` (lines 45-65). An exception thrown inside
it rejects the promise returned by `send`. -/
def catchHandler (p : SendPayload) (e : AxErr) : SendResult :=
  if e.code == some "ECONNREFUSED" then
    { events := [.connRefusedLog e.configUrl], rejected := none }
  else
    match e.response with
    | none => { events := [], rejected := some "TypeError: cannot read data of undefined" }
    | some rd =>
      if (p.hasQuery && p.hasVariables) || rd.errors.isSome then errorsPath e rd
      else { events := [.filogReport e.message rd.code (.rawData rd)], rejected := none }

/-- Model of `HttpClient.send` (lines 24-66): the `.then` handler inspects a
GraphQL-style `errors` array; exceptions it throws fall through to `.catch`
as a `TypeError` carrying no `response`. -/
def sendModel (p : SendPayload) (outcome : HttpOutcome) : SendResult :=
  match outcome with
  | .fulfilled data =>
    match data.errors with
    | none => { events := [], rejected := none }
    | some [] => catchHandler p { message := "TypeError: cannot destructure undefined" }
    | some (g :: _) =>
      match g.extensions with
      | none => catchHandler p { message := "TypeError: delete on undefined extensions" }
      | some ext =>
        { events := [.filogReport "GraphQL Error" ext.code
            (.gqlBody g.message { ext with stacktrace := none })],
          rejected := none }
  | .failed e => catchHandler p e

/-! ## Definitions taken from the claims (for refinement comparisons) -/

/-- Claim C8 reads the HTTP dispatch guard as the bare pattern
`^https?://`. -/
def claimHttpSchemeOnly (s : String) : Bool :=
  startsWithCI "http://" s || startsWithCI "https://" s

/-- Check that a character list starts with a dot. -/
def headIsDot (l : List Char) : Bool :=
  match l with
  | c :: _ => c == '.'
  | [] => false

/-- Claim C10, extension part: the file string ends with a dot followed by
one or more characters drawn from the set t s j x e m c `|` (stated here by
taking the maximal trailing run of class characters and requiring a dot
right before it). -/
def claimEndsWithDotExt (s : String) : Bool :=
  let r := s.data.reverse
  !(r.takeWhile extClassChar).isEmpty && headIsDot (r.dropWhile extClassChar)

/-- Claim C10: survives iff the file begins with `file:` (case-insensitive),
or ends with a dot followed by class characters, or is exactly
`<anonymous>`. -/
def claimKeepFile (s : String) : Bool :=
  startsWithCI "file:" s || claimEndsWithDotExt s || s == "<anonymous>"

/-- Predicate: dispatch `d` goes to transport `t` (HTTP client built from
its `client_id` and `url`, or queue publish to its `url`). -/
def dispatchUsesTransport (d : Dispatch) (t : FilogInitObject) : Prop :=
  (∃ p, d = .http (mkHttpClient t.client_id t.url) p) ∨ (∃ p, d = .queue t.url p)

/-! ## Concrete inputs used in the theorems -/

/-- A stack-trace parser returning no frames (the real parser on `""`). -/
def parseNone : String → List StackFrame := fun _ => []

def c1Args : FilogInitArguments :=
  { transports := some [{ client_id := "a", url := "https://logs.example.io/api", logType := "ERROR" }] }

def c1Payload : ErrorPayload :=
  { logLevel := "WARNING", errorDescription := some (.strD "boom") }

def c2Args : FilogInitArguments :=
  { transports := some [{ client_id := "a", url := "https://e", logType := "ANY" }] }

def c2ArgsLongUrl : FilogInitArguments :=
  { transports := some [{ client_id := "a", url := "https://logs.example.io/api", logType := "ANY" }] }

def c2Payload : ErrorPayload :=
  { logLevel := "ERROR", errorDescription := some (.strD "boom") }

def c3Args : FilogInitArguments :=
  { transports := some [{ client_id := "c3", url := "https://logs.example.io/v1", logType := "ANY" }] }

def c3CePayload : ErrorPayload :=
  { logLevel := "ERROR", errorDescription := some (.strD "") }

def c3CeOpts : WriteOptions :=
  { verbose := "false", originalError := some { name := "E", message := "m", stack := some "" } }

def c3WitPayload : ErrorPayload :=
  { logLevel := "ERROR", errorDescription := some (.strD "boom") }

def c5Args : FilogInitArguments :=
  { transports := some [{ client_id := "c5", url := "https://logs.example.io/w", logType := "ANY" }] }

def c5Payload : ErrorPayload :=
  { logLevel := "WARNING", errorDescription := some (.strD "w") }

def c6Args : FilogInitArguments :=
  { transports := some [{ client_id := "x", url := "https://a.example.io/logs", logType := "INFO" },
                        { client_id := "b", url := "https://b.example.io/logs", logType := "ERROR" }] }

def c6Payload : ErrorPayload :=
  { logLevel := "ERROR", errorDescription := some (.strD "oops") }

def c7Frame : StackFrame :=
  { file := "file:///app/main.ts", methodName := "fn", lineNumber := some 3, column := some 7 }

def c7Err : JsError := { name := "E", message := "m", stack := some "raw-stack" }

def c7Payload : ErrorPayload :=
  { logLevel := "ERROR", errorDescription := some (.errD c7Err) }

def c8Args : FilogInitArguments :=
  { transports := some [{ client_id := "cid", url := "https://e", logType := "ERROR" }] }

def c8Payload : ErrorPayload :=
  { logLevel := "ERROR", errorDescription := some (.strD "x") }

def c8WitArgs : FilogInitArguments :=
  { transports := some [{ client_id := "w8", url := "amqp://mq.example.io/q", logType := "ERROR" }] }

def c8WitPayload : ErrorPayload :=
  { logLevel := "ERROR", errorDescription := some (.strD "y") }

def c9Err : JsError := { name := "TypeError", message := "x", stack := some "" }

/-! ## Helper lemmas -/

theorem head?_filter {α : Type} (p : α → Bool) (l : List α) :
    (l.filter p).head? = l.find? p := by
  induction l with
  | nil => rfl
  | cons a l ih =>
    by_cases h : p a
    · simp [List.filter_cons, List.find?_cons, h]
    · simp [List.filter_cons, List.find?_cons, h, ih]

theorem selectTransports_head (ts : List FilogInitObject) (L : String) :
    (selectTransports ts L).head? =
      (ts.find? (fun f => f.logType == L)).orElse
        (fun _ => ts.find? (fun f => jsToUpper f.logType == "ANY")) := by
  have e1 : ts.find? (fun f => f.logType == L) =
      (ts.filter (fun f => f.logType == L)).head? := (head?_filter _ ts).symm
  have e2 : ts.find? (fun f => jsToUpper f.logType == "ANY") =
      (ts.filter (fun f => jsToUpper f.logType == "ANY")).head? := (head?_filter _ ts).symm
  rw [e1, e2]
  unfold selectTransports
  by_cases h : (ts.filter (fun f => f.logType == L)).isEmpty
  · have h0 : ts.filter (fun f => f.logType == L) = [] := by simpa using h
    rw [if_pos h, h0]
    rfl
  · have h0 : ts.filter (fun f => f.logType == L) ≠ [] := by simpa using h
    rw [if_neg h]
    cases hf : ts.filter (fun f => f.logType == L) with
    | nil => exact absurd hf h0
    | cons a l => rfl

theorem isPrefixOf_lower_head {c : Char} {cs l : List Char}
    (h : (List.map Char.toLower (c :: cs)).isPrefixOf (List.map Char.toLower l) = true) :
    ∃ d ds, l = d :: ds ∧ c.toLower = d.toLower := by
  cases l with
  | nil => simp [List.isPrefixOf] at h
  | cons d ds =>
    refine ⟨d, ds, rfl, ?_⟩
    simp only [List.map_cons, List.isPrefixOf, Bool.and_eq_true, beq_iff_eq] at h
    exact h.1

theorem http_head {s : String} (h : httpUrlTest s = true) :
    ∃ d ds, s.data = d :: ds ∧ d.toLower = 'h' := by
  unfold httpUrlTest at h
  have hpre : startsWithCI "https://" s = true ∨ startsWithCI "http://" s = true := by
    by_cases h1 : startsWithCI "https://" s = true
    · exact Or.inl h1
    · rw [if_neg h1] at h
      by_cases h2 : startsWithCI "http://" s = true
      · exact Or.inr h2
      · rw [if_neg h2] at h
        exact absurd h (by simp)
  cases hpre with
  | inl h1 =>
    have h2 : (List.map Char.toLower ('h' :: "ttps://".data)).isPrefixOf
        (List.map Char.toLower s.data) = true := h1
    obtain ⟨d, ds, hd, he⟩ := isPrefixOf_lower_head h2
    exact ⟨d, ds, hd, by rw [← he]; decide⟩
  | inr h1 =>
    have h2 : (List.map Char.toLower ('h' :: "ttp://".data)).isPrefixOf
        (List.map Char.toLower s.data) = true := h1
    obtain ⟨d, ds, hd, he⟩ := isPrefixOf_lower_head h2
    exact ⟨d, ds, hd, by rw [← he]; decide⟩

theorem amqp_head {s : String} (h : amqpUrlTest s = true) :
    ∃ d ds, s.data = d :: ds ∧ d.toLower = 'a' := by
  unfold amqpUrlTest at h
  have hpre : startsWithCI "amqps://" s = true ∨ startsWithCI "amqp://" s = true := by
    by_cases h1 : startsWithCI "amqps://" s = true
    · exact Or.inl h1
    · rw [if_neg h1] at h
      by_cases h2 : startsWithCI "amqp://" s = true
      · exact Or.inr h2
      · rw [if_neg h2] at h
        exact absurd h (by simp)
  cases hpre with
  | inl h1 =>
    have h2 : (List.map Char.toLower ('a' :: "mqps://".data)).isPrefixOf
        (List.map Char.toLower s.data) = true := h1
    obtain ⟨d, ds, hd, he⟩ := isPrefixOf_lower_head h2
    exact ⟨d, ds, hd, by rw [← he]; decide⟩
  | inr h1 =>
    have h2 : (List.map Char.toLower ('a' :: "mqp://".data)).isPrefixOf
        (List.map Char.toLower s.data) = true := h1
    obtain ⟨d, ds, hd, he⟩ := isPrefixOf_lower_head h2
    exact ⟨d, ds, hd, by rw [← he]; decide⟩

theorem http_amqp_exclusive (s : String) (h : httpUrlTest s = true) :
    amqpUrlTest s = false := by
  by_contra hc
  have ha : amqpUrlTest s = true := by
    revert hc
    cases amqpUrlTest s <;> simp
  obtain ⟨d, ds, hd, hh⟩ := http_head h
  obtain ⟨d2, ds2, hd2, haa⟩ := amqp_head ha
  rw [hd] at hd2
  injection hd2 with h1 _
  rw [← h1, hh] at haa
  exact absurd haa (by decide)

theorem dropWhile_ne_nil_of_mem {α : Type} {p : α → Bool} {l : List α} {x : α}
    (hx : x ∈ l) (hpx : p x = false) : l.dropWhile p ≠ [] := by
  induction l with
  | nil => cases hx
  | cons a l ih =>
    by_cases h : p a = true
    · rw [List.dropWhile_cons_of_pos h]
      rcases List.mem_cons.mp hx with rfl | hmem
      · rw [h] at hpx; cases hpx
      · exact ih hmem
    · rw [List.dropWhile_cons_of_neg h]
      simp

theorem jsTrimEndL_append {a b : List Char} {x : Char}
    (hx : x ∈ b) (hxw : jsIsWs x = false) :
    jsTrimEndL (a ++ b) = a ++ jsTrimEndL b := by
  unfold jsTrimEndL
  rw [List.reverse_append, List.dropWhile_append]
  have hne : b.reverse.dropWhile jsIsWs ≠ [] :=
    dropWhile_ne_nil_of_mem (List.mem_reverse.mpr hx) hxw
  rw [if_neg (by simpa using hne), List.reverse_append, List.reverse_reverse]

theorem foldl_frameLines (l : List StackFrame) : ∀ acc : String,
    l.foldl (fun a f => a ++ frameLine f) acc = acc ++ concatLines l := by
  induction l with
  | nil => intro acc; simp [concatLines]
  | cons f r ih =>
    intro acc
    rw [List.foldl_cons, ih (acc ++ frameLine f), String.append_assoc]
    rfl

theorem rawDescription_eq (nm ms : String) (l : List StackFrame) :
    rawDescription nm ms l = (nm ++ ": " ++ ms ++ "\n") ++ concatLines l :=
  foldl_frameLines l _

theorem backfill_desc (args : FilogInitArguments) (e : ErrorPayload) :
    (backfill args e).errorDescription = e.errorDescription := by
  unfold backfill
  split <;> (dsimp only; split <;> rfl)

theorem normalizeStep_strD {parse : String → List StackFrame} {e : ErrorPayload} {s : String}
    (hd : e.errorDescription = some (.strD s)) :
    normalizeStep parse e none = .ok (e, s) := by
  unfold normalizeStep
  rw [hd]
  rfl

theorem normalizeStep_errD {parse : String → List StackFrame} {e : ErrorPayload}
    {je : JsError} {st : String}
    (hd : e.errorDescription = some (.errD je)) (hs : je.stack = some st) :
    normalizeStep parse e none =
      .ok ({ e with
             errorDescription := some (.strD (jsTrimEnd
               (rawDescription je.name je.message ((parse st).filter keepFrame)))) },
           rawDescription je.name je.message ((parse st).filter keepFrame)) := by
  unfold normalizeStep
  rw [hd]
  simp only [isErrDesc, descTruthy, descStackJs, descNameJs, descMessageJs, Option.isSome_none,
    Bool.or_false, if_true, hs]

theorem normalizeStep_ok_strD {parse : String → List StackFrame} {e : ErrorPayload}
    {orig : Option JsError} {e3 : ErrorPayload} {raw : String}
    (hok : normalizeStep parse e orig = .ok (e3, raw))
    (h : e.errorDescription.isSome = true ∨ orig.isSome = true) :
    ∃ s, e3.errorDescription = some (.strD s) := by
  unfold normalizeStep at hok
  by_cases hc : (isErrDesc e.errorDescription || orig.isSome) = true
  · rw [if_pos hc] at hok
    cases hst : (if descTruthy e.errorDescription then descStackJs e.errorDescription
        else origStack orig) with
    | none => rw [hst] at hok; cases hok
    | some st =>
      rw [hst] at hok
      simp only [Except.ok.injEq, Prod.mk.injEq] at hok
      have he3 := hok.1
      subst he3
      exact ⟨_, rfl⟩
  · rw [if_neg hc] at hok
    have h2 : isErrDesc e.errorDescription = false ∧ orig.isSome = false := by
      constructor
      · by_contra hx
        have : isErrDesc e.errorDescription = true := by
          revert hx; cases isErrDesc e.errorDescription <;> simp
        exact hc (by simp [this])
      · by_contra hx
        have : orig.isSome = true := by
          revert hx; cases orig.isSome <;> simp
        exact hc (by simp [this])
    cases h with
    | inr ho => rw [h2.2] at ho; cases ho
    | inl hd =>
      cases hdesc : e.errorDescription with
      | none => rw [hdesc] at hd; cases hd
      | some x =>
        cases x with
        | errD je =>
          rw [hdesc] at h2
          simp [isErrDesc] at h2
        | strD s =>
          simp only [Except.ok.injEq, Prod.mk.injEq] at hok
          have he3 := hok.1
          subst he3
          exact ⟨s, hdesc⟩

theorem dispatchStep_length_le (t : FilogInitObject) (p : ErrorPayload) :
    (dispatchStep t p).length ≤ 1 := by
  unfold dispatchStep
  by_cases h1 : httpUrlTest t.url = true
  · rw [if_pos h1, if_neg (by rw [http_amqp_exclusive t.url h1]; simp)]
    simp
  · rw [if_neg h1]
    by_cases h2 : amqpUrlTest t.url = true
    · rw [if_pos h2]; simp
    · rw [if_neg h2]; simp

theorem dispatchStep_uses (t : FilogInitObject) (p : ErrorPayload) :
    ∀ d ∈ dispatchStep t p, dispatchUsesTransport d t := by
  intro d hd
  unfold dispatchStep at hd
  rcases List.mem_append.mp hd with h | h
  · by_cases h1 : httpUrlTest t.url = true
    · rw [if_pos h1] at h
      simp only [List.mem_singleton] at h
      subst h
      exact Or.inl ⟨p, rfl⟩
    · rw [if_neg h1] at h; cases h
  · by_cases h2 : amqpUrlTest t.url = true
    · rw [if_pos h2] at h
      simp only [List.mem_singleton] at h
      subst h
      exact Or.inr ⟨p, rfl⟩
    · rw [if_neg h2] at h; cases h

theorem writeModel_dispatches_ok {parse : String → List StackFrame}
    {args : FilogInitArguments} {e : ErrorPayload} {opts : WriteOptions}
    {ts : List FilogInitObject} {e3 : ErrorPayload} {raw : String}
    {t : FilogInitObject} {rest : List FilogInitObject}
    (hts : args.transports = some ts)
    (hn : normalizeStep parse (backfill args e) opts.originalError = .ok (e3, raw))
    (hsel : selectTransports ts e.logLevel = t :: rest) :
    (writeModel parse args e opts).dispatches = dispatchStep t e3 := by
  unfold writeModel
  rw [hts]
  simp only [hn, hsel]

theorem writeModel_dispatches_cases (parse : String → List StackFrame)
    (args : FilogInitArguments) (e : ErrorPayload) (opts : WriteOptions) :
    (writeModel parse args e opts).dispatches = [] ∨
    ∃ ts t rest e3 raw,
      args.transports = some ts ∧
      normalizeStep parse (backfill args e) opts.originalError = .ok (e3, raw) ∧
      selectTransports ts e.logLevel = t :: rest ∧
      (writeModel parse args e opts).dispatches = dispatchStep t e3 := by
  cases hts : args.transports with
  | none => left; unfold writeModel; rw [hts]
  | some ts =>
    cases hn : normalizeStep parse (backfill args e) opts.originalError with
    | error r => left; unfold writeModel; rw [hts]; simp only [hn]
    | ok pr =>
      obtain ⟨e3, raw⟩ := pr
      cases hsel : selectTransports ts e.logLevel with
      | nil => left; unfold writeModel; rw [hts]; simp only [hn, hsel]
      | cons t rest =>
        right
        exact ⟨ts, t, rest, e3, raw, rfl, rfl, hsel, writeModel_dispatches_ok hts hn hsel⟩

theorem extTest_iff (cs : List Char) :
    extTest cs = true ↔
      ∃ a b, cs = a ++ '.' :: b ∧ b ≠ [] ∧ b.all extClassChar = true := by
  induction cs with
  | nil =>
    constructor
    · intro h; cases h
    · rintro ⟨a, b, h, -, -⟩
      cases a <;> simp at h
  | cons c rest ih =>
    constructor
    · intro h
      simp only [extTest, Bool.or_eq_true, Bool.and_eq_true, beq_iff_eq] at h
      rcases h with ⟨⟨h1, h2⟩, h3⟩ | h4
      · refine ⟨[], rest, ?_, ?_, h3⟩
        · rw [h1]; rfl
        · simpa using h2
      · obtain ⟨a, b, hcs, hb, hall⟩ := ih.mp h4
        exact ⟨c :: a, b, by rw [List.cons_append, hcs], hb, hall⟩
    · rintro ⟨a, b, hcs, hb, hall⟩
      cases a with
      | nil =>
        simp only [List.nil_append, List.cons.injEq] at hcs
        obtain ⟨hc, hrest⟩ := hcs
        subst hrest
        simp only [extTest, Bool.or_eq_true, Bool.and_eq_true, beq_iff_eq]
        left
        exact ⟨⟨hc, by simpa using hb⟩, hall⟩
      | cons x a2 =>
        simp only [List.cons_append, List.cons.injEq] at hcs
        obtain ⟨hx, hrest⟩ := hcs
        simp only [extTest, Bool.or_eq_true]
        right
        exact ih.mpr ⟨a2, b, hrest, hb, hall⟩

theorem all_of_takeWhile {p : Char → Bool} (l : List Char) :
    (l.takeWhile p).all p = true := by
  induction l with
  | nil => rfl
  | cons c rest ih =>
    by_cases h : p c = true
    · rw [List.takeWhile_cons_of_pos h]
      simp [h, ih]
    · rw [List.takeWhile_cons_of_neg h]
      rfl

theorem all_mem_of_all {p : Char → Bool} {l : List Char} (h : l.all p = true) :
    ∀ x ∈ l, p x = true :=
  List.all_eq_true.mp h

theorem headIsDot_iff (l : List Char) :
    headIsDot l = true ↔ ∃ w, l = '.' :: w := by
  cases l with
  | nil => simp [headIsDot]
  | cons c w =>
    simp only [headIsDot, beq_iff_eq, List.cons.injEq]
    constructor
    · intro h
      exact ⟨w, h, rfl⟩
    · rintro ⟨w2, h, rfl⟩
      exact h

theorem claimEndsWithDotExt_iff (s : String) :
    claimEndsWithDotExt s = true ↔
      ∃ a b, s.data = a ++ '.' :: b ∧ b ≠ [] ∧ b.all extClassChar = true := by
  unfold claimEndsWithDotExt
  rw [Bool.and_eq_true]
  constructor
  · rintro ⟨ht, hm⟩
    obtain ⟨w, hw⟩ := (headIsDot_iff _).mp hm
    set t := s.data.reverse.takeWhile extClassChar with htdef
    have hr : s.data.reverse = t ++ '.' :: w := by
      conv_lhs => rw [← List.takeWhile_append_dropWhile extClassChar s.data.reverse]
      rw [hw]
    have hsd : s.data = w.reverse ++ '.' :: t.reverse := by
      have h2 := congrArg List.reverse hr
      rw [List.reverse_reverse] at h2
      rw [h2, List.reverse_append, List.reverse_cons, List.append_assoc]
      rfl
    refine ⟨w.reverse, t.reverse, hsd, ?_, ?_⟩
    · simpa using ht
    · rw [List.all_eq_true]
      intro x hx
      exact all_mem_of_all (all_of_takeWhile s.data.reverse) x (List.mem_reverse.mp hx)
  · rintro ⟨a, b, hs, hb, hall⟩
    have hbrev : ∀ x ∈ b.reverse, extClassChar x = true := by
      intro x hx
      exact all_mem_of_all hall x (List.mem_reverse.mp hx)
    have hr : s.data.reverse = b.reverse ++ '.' :: a.reverse := by
      rw [hs, List.reverse_append, List.reverse_cons, List.append_assoc]
      rfl
    constructor
    · rw [hr, List.takeWhile_append_of_pos hbrev,
        List.takeWhile_cons_of_neg (by decide), List.append_nil]
      simpa using hb
    · rw [hr, List.dropWhile_append_of_pos hbrev,
        List.dropWhile_cons_of_neg (by decide)]
      simp [headIsDot]

theorem dispatchStep_desc (t : FilogInitObject) (p : ErrorPayload) :
    ∀ d ∈ dispatchStep t p, descOfDispatch d = p.errorDescription := by
  intro d hd
  unfold dispatchStep at hd
  rcases List.mem_append.mp hd with h | h
  · by_cases h1 : httpUrlTest t.url = true
    · rw [if_pos h1] at h
      simp only [List.mem_singleton] at h
      subst h
      rfl
    · rw [if_neg h1] at h
      cases h
  · by_cases h2 : amqpUrlTest t.url = true
    · rw [if_pos h2] at h
      simp only [List.mem_singleton] at h
      subst h
      rfl
    · rw [if_neg h2] at h
      cases h

/-! ## Claim theorems -/

/-- C1: the claim says a payload whose level matches no transport (and no ANY
transport exists) yields zero network calls, a local diagnostic and no throw.
The code only guards `!this.args.transports`; with transports configured but
none matching, `transport` is empty and line 193 reads `transport[0].url` of
`undefined`: `write` throws a TypeError, performs no dispatch and prints no
diagnostic. This theorem evaluates the model at that failing input. -/
theorem filog_c1_unmatched_level_throws :
    writeModel parseNone c1Args c1Payload {} =
      { msgs := [], dispatches := [],
        threw := some "TypeError: cannot read url of undefined" } := by
  decide

/-- C2: with config `[(client_id a, url https://e, logType ANY)]` and payload
`(logLevel ERROR, errorDescription boom)`, the claim expects one POST to
`https://e`. The code performs zero network calls: the URL guard
`^https?://[^\s/$.?#].[^\s]*$` requires at least two characters after the
scheme, so `https://e` fails it. Moreover, for any URL that does pass the
guard, `write` builds `new HttpClient(client_id, url)` against
`constructor(target, auth)`, so the POST goes to `this.target = client_id`
(here the string `a`), never to the configured url. -/
theorem filog_c2_any_transport_scenario :
    writeModel parseNone c2Args c2Payload {} =
      { msgs := [], dispatches := [], threw := none } ∧
    (writeModel parseNone c2ArgsLongUrl c2Payload {}).dispatches =
      [Dispatch.http { auth := "https://logs.example.io/api", target := "a" } c2Payload] ∧
    httpRequestUrl { auth := "https://logs.example.io/api", target := "a" } = "a" := by
  refine ⟨by decide, by decide, rfl⟩

/-- C3 counterexample: `errorDescription` is the (already-string) value `""`
and an `originalError` is supplied. Because the guard is
`errorDescription instanceof Error || originalError instanceof Error`, the
Error branch runs and replaces the string with the description built from
`originalError`: the dispatched value is `"E: m"`, not the input string. -/
theorem filog_c3_counterexample :
    (writeModel parseNone c3Args c3CePayload c3CeOpts).dispatches =
      [Dispatch.http { auth := "https://logs.example.io/v1", target := "c3" }
        { logLevel := "ERROR", errorDescription := some (.strD "E: m") }] ∧
    some (ErrDesc.strD "E: m") ≠ some (ErrDesc.strD "") := by
  refine ⟨by decide, by decide⟩

/-- C3 amended: normalization is the identity on an already-string
`errorDescription` provided no `originalError` is supplied; the dispatched
value then equals the input string unchanged. (With an `originalError`
present the string is rewritten from the originalError, or a TypeError is
thrown for a truthy string.) -/
theorem filog_c3_amended (parse : String → List StackFrame) (args : FilogInitArguments)
    (e : ErrorPayload) (opts : WriteOptions) (s : String)
    (hd : e.errorDescription = some (.strD s)) (ho : opts.originalError = none) :
    normalizeStep parse (backfill args e) opts.originalError = .ok (backfill args e, s) ∧
    ∀ d ∈ (writeModel parse args e opts).dispatches, descOfDispatch d = some (.strD s) := by
  have hbd : (backfill args e).errorDescription = some (.strD s) := by
    rw [backfill_desc]
    exact hd
  have hn : normalizeStep parse (backfill args e) opts.originalError = .ok (backfill args e, s) := by
    rw [ho]
    exact normalizeStep_strD hbd
  refine ⟨hn, ?_⟩
  intro d hdm
  rcases writeModel_dispatches_cases parse args e opts with hnil |
    ⟨ts, t, rest, e3, raw, hts, hok, hsel, hdisp⟩
  · rw [hnil] at hdm
    cases hdm
  · rw [hdisp] at hdm
    have he3 : e3 = backfill args e := by
      have h2 := hn.symm.trans hok
      simp only [Except.ok.injEq, Prod.mk.injEq] at h2
      exact h2.1.symm
    rw [dispatchStep_desc t e3 d hdm, he3, hbd]

/-- C3 witness: a concrete string payload with no originalError reaches the
transport unchanged. -/
theorem filog_c3_witness :
    descOfDispatch
        (Dispatch.http { auth := "https://logs.example.io/v1", target := "c3" } c3WitPayload) =
      some (.strD "boom") :=
  (filog_c3_amended parseNone c3Args c3WitPayload {} "boom" rfl rfl).2 _ (by decide)

/-- C10: the stack-frame filter keeps exactly the files that begin with
`file:` case-insensitively, or end in a dot followed by one or more
characters of the class t s j x e m c `|` (the regex bracket is a character
class, not an alternation of extensions), or equal `<anonymous>`; so
`main.exe` survives while `main.py` does not. -/
theorem filog_c10_frame_filter :
    (∀ file : String, keepFile file = claimKeepFile file) ∧
    keepFile "main.exe" = true ∧ keepFile "main.py" = false := by
  refine ⟨?_, by decide, by decide⟩
  intro f
  unfold keepFile claimKeepFile
  have hmid : extTest f.data = claimEndsWithDotExt f := by
    rw [Bool.eq_iff_iff]
    rw [extTest_iff f.data, claimEndsWithDotExt_iff f]
  rw [hmid]

/-- C4 counterexample: a transport failure that is not connection-refused and
carries no `response` object (e.g. a timeout) makes the catch handler read
`error.response.data`, throwing a TypeError that rejects the promise
returned by `send`: the failure is not swallowed. -/
theorem filog_c4_counterexample :
    (sendModel { hasQuery := false, hasVariables := false }
        (.failed { code := some "ETIMEDOUT", message := "timeout",
                   configUrl := "https://x", response := none })).rejected =
      some "TypeError: cannot read data of undefined" := by
  decide

/-- C4 amended: `send` swallows the outcome and reports locally in exactly
these cases: a 200 response whose errors array has a first element carrying
extensions (reported code is the extension code, stacktrace stripped); a
connection-refused failure; a failure carrying a response with no errors
array and a non-GraphQL payload (raw body reported); and a failure carrying
a response whose errors array is nonempty with extensions on its first
error (locations and stacktrace stripped). In the remaining cases the catch
handler itself throws and the promise returned by `send` rejects: a
non-connection-refused failure without a response object, a failure whose
response carries an empty errors array, one whose first error lacks
extensions, and a GraphQL-shaped payload whose failure response has no
errors array. -/
theorem filog_c4_amended :
    (∀ (p : SendPayload) (msg : Option String) (st : List String),
        sendModel p (.fulfilled
            { errors := some [⟨msg, none, some { code := some "X", stacktrace := some st }⟩],
              code := none }) =
          { events := [.filogReport "GraphQL Error" (some "X")
              (.gqlBody msg { code := some "X", stacktrace := none })], rejected := none })
  ∧ (∀ (p : SendPayload) (e : AxErr), e.code = some "ECONNREFUSED" →
        sendModel p (.failed e) = { events := [.connRefusedLog e.configUrl], rejected := none })
  ∧ (∀ (p : SendPayload) (e : AxErr) (rd : RespData),
        e.code ≠ some "ECONNREFUSED" → e.response = some rd → rd.errors = none →
        (p.hasQuery && p.hasVariables) = false →
        sendModel p (.failed e) =
          { events := [.filogReport e.message rd.code (.rawData rd)], rejected := none })
  ∧ (∀ (p : SendPayload) (e : AxErr) (rd : RespData) (g : GqlErr) (tl : List GqlErr)
        (ext : Extensions),
        e.code ≠ some "ECONNREFUSED" → e.response = some rd → rd.errors = some (g :: tl) →
        g.extensions = some ext →
        sendModel p (.failed e) =
          { events := [.filogReport e.message rd.code
              (.apiErr { message := g.message, locations := none,
                         extensions := some { code := ext.code, stacktrace := none } })],
            rejected := none })
  ∧ (∀ (p : SendPayload) (e : AxErr) (rd : RespData),
        e.code ≠ some "ECONNREFUSED" → e.response = some rd → rd.errors = some [] →
        (sendModel p (.failed e)).rejected.isSome = true)
  ∧ (∀ (p : SendPayload) (e : AxErr) (rd : RespData) (g : GqlErr) (tl : List GqlErr),
        e.code ≠ some "ECONNREFUSED" → e.response = some rd → rd.errors = some (g :: tl) →
        g.extensions = none →
        (sendModel p (.failed e)).rejected.isSome = true)
  ∧ (∀ (p : SendPayload) (e : AxErr) (rd : RespData),
        e.code ≠ some "ECONNREFUSED" → e.response = some rd → rd.errors = none →
        (p.hasQuery && p.hasVariables) = true →
        (sendModel p (.failed e)).rejected.isSome = true)
  ∧ (∀ (p : SendPayload) (cd : Option String),
        (sendModel p (.fulfilled { errors := some [], code := cd })).rejected.isSome = true)
  ∧ (∀ (p : SendPayload) (g : GqlErr) (tl : List GqlErr) (cd : Option String),
        g.extensions = none →
        (sendModel p (.fulfilled { errors := some (g :: tl), code := cd })).rejected.isSome =
          true) := by
  refine ⟨?_, ?_, ?_, ?_, ?_, ?_, ?_, ?_, ?_⟩
  · intro p msg st
    rfl
  · intro p e h
    simp [sendModel, catchHandler, h]
  · intro p e rd hne hresp herr hpq
    have hb : (e.code == some "ECONNREFUSED") = false := beq_eq_false_iff_ne.mpr hne
    simp [sendModel, catchHandler, hb, hresp, herr, hpq]
  · intro p e rd g tl ext hne hresp herr hext
    have hb : (e.code == some "ECONNREFUSED") = false := beq_eq_false_iff_ne.mpr hne
    simp [sendModel, catchHandler, errorsPath, hb, hresp, herr, hext]
  · intro p e rd hne hresp herr
    have hb : (e.code == some "ECONNREFUSED") = false := beq_eq_false_iff_ne.mpr hne
    simp [sendModel, catchHandler, errorsPath, hb, hresp, herr]
  · intro p e rd g tl hne hresp herr hext
    have hb : (e.code == some "ECONNREFUSED") = false := beq_eq_false_iff_ne.mpr hne
    simp [sendModel, catchHandler, errorsPath, hb, hresp, herr, hext]
  · intro p e rd hne hresp herr hpq
    have hb : (e.code == some "ECONNREFUSED") = false := beq_eq_false_iff_ne.mpr hne
    simp [sendModel, catchHandler, errorsPath, hb, hresp, herr, hpq]
  · intro p cd
    rfl
  · intro p g tl cd hext
    simp [sendModel, catchHandler, hext]

/-- C4 witness: the amended theorem applied at concrete inputs. -/
theorem filog_c4_witness :
    sendModel { hasQuery := false, hasVariables := false }
        (.failed { code := some "ECONNREFUSED", message := "conn",
                   configUrl := "https://w", response := none }) =
      { events := [.connRefusedLog "https://w"], rejected := none } ∧
    sendModel { hasQuery := false, hasVariables := false }
        (.failed { code := some "EOTHER", message := "bad", configUrl := "u",
                   response := some { errors := none, code := some "500" } }) =
      { events := [.filogReport "bad" (some "500")
          (.rawData { errors := none, code := some "500" })], rejected := none } := by
  constructor
  · exact filog_c4_amended.2.1 { hasQuery := false, hasVariables := false }
      { code := some "ECONNREFUSED", message := "conn", configUrl := "https://w", response := none }
      rfl
  · exact filog_c4_amended.2.2.1 { hasQuery := false, hasVariables := false }
      { code := some "EOTHER", message := "bad", configUrl := "u",
        response := some { errors := none, code := some "500" } }
      { errors := none, code := some "500" } (by decide) rfl rfl rfl

/-- C5: every payload actually dispatched by `write` (HTTP or queue) carries
a string `errorDescription`, never an Error value: the Error branch always
replaces the description with the built string before dispatch, and the
other branch requires the description not to be an Error. -/
theorem filog_c5_dispatched_description_string
    (parse : String → List StackFrame) (args : FilogInitArguments)
    (e : ErrorPayload) (opts : WriteOptions)
    (h : e.errorDescription.isSome = true ∨ opts.originalError.isSome = true) :
    ∀ d ∈ (writeModel parse args e opts).dispatches, ∃ s, descOfDispatch d = some (.strD s) := by
  intro d hdm
  rcases writeModel_dispatches_cases parse args e opts with hnil |
    ⟨ts, t, rest, e3, raw, hts, hok, hsel, hdisp⟩
  · rw [hnil] at hdm
    cases hdm
  · rw [hdisp] at hdm
    have h2 : (backfill args e).errorDescription.isSome = true ∨ opts.originalError.isSome = true := by
      rw [backfill_desc]
      exact h
    obtain ⟨s, hs⟩ := normalizeStep_ok_strD hok h2
    exact ⟨s, by rw [dispatchStep_desc t e3 d hdm, hs]⟩

/-- C5 witness. -/
theorem filog_c5_witness :
    ∃ s, descOfDispatch
        (Dispatch.http { auth := "https://logs.example.io/w", target := "c5" } c5Payload) =
      some (.strD s) :=
  filog_c5_dispatched_description_string parseNone c5Args c5Payload {} (Or.inl rfl) _ (by decide)

/-- C6: `write` selects the first transport whose `logType` equals the
payload level, else the first whose `logType` upper-cases to `ANY`; at most
one network call is made per invocation, and it goes to that first selected
transport. -/
theorem filog_c6_first_match :
    (∀ (ts : List FilogInitObject) (L : String),
        (selectTransports ts L).head? =
          (ts.find? (fun f => f.logType == L)).orElse
            (fun _ => ts.find? (fun f => jsToUpper f.logType == "ANY")))
  ∧ (∀ (parse : String → List StackFrame) (args : FilogInitArguments)
        (e : ErrorPayload) (opts : WriteOptions) (ts : List FilogInitObject)
        (t : FilogInitObject) (rest : List FilogInitObject),
        args.transports = some ts →
        selectTransports ts e.logLevel = t :: rest →
        (writeModel parse args e opts).dispatches.length ≤ 1 ∧
        ∀ d ∈ (writeModel parse args e opts).dispatches, dispatchUsesTransport d t) := by
  constructor
  · exact selectTransports_head
  · intro parse args e opts ts t rest hts hsel
    cases hn : normalizeStep parse (backfill args e) opts.originalError with
    | error r =>
      have hz : (writeModel parse args e opts).dispatches = [] := by
        unfold writeModel
        rw [hts]
        simp only [hn]
      constructor
      · rw [hz]
        simp
      · intro d hdm
        rw [hz] at hdm
        cases hdm
    | ok pr =>
      obtain ⟨e3, raw⟩ := pr
      have hz := writeModel_dispatches_ok hts hn hsel
      constructor
      · rw [hz]
        exact dispatchStep_length_le t e3
      · intro d hdm
        rw [hz] at hdm
        exact dispatchStep_uses t e3 d hdm

/-- C6 witness: two transports, level ERROR selects the second; the single
dispatch uses it. -/
theorem filog_c6_witness :
    (writeModel parseNone c6Args c6Payload {}).dispatches.length ≤ 1 ∧
    dispatchUsesTransport
      (Dispatch.http { auth := "https://b.example.io/logs", target := "b" } c6Payload)
      { client_id := "b", url := "https://b.example.io/logs", logType := "ERROR" } := by
  have h := filog_c6_first_match.2 parseNone c6Args c6Payload {}
    [{ client_id := "x", url := "https://a.example.io/logs", logType := "INFO" },
     { client_id := "b", url := "https://b.example.io/logs", logType := "ERROR" }]
    { client_id := "b", url := "https://b.example.io/logs", logType := "ERROR" } []
    rfl (by decide)
  exact ⟨h.1, h.2 _ (by decide)⟩

/-- C7 counterexample: for an Error with empty message and no surviving
frames (e.g. `stack` is the empty string, which the parser turns into no
frames), the built string is `"Error: \n"` and `trimEnd` eats the space
after the colon: the result `"Error:"` does not start with
`"<name>: <message>"` (here `"Error: "`). -/
theorem filog_c7_counterexample :
    normalizeStep parseNone
        { logLevel := "ERROR",
          errorDescription := some (.errD { name := "Error", message := "", stack := some "" }) }
        none =
      .ok ({ logLevel := "ERROR", errorDescription := some (.strD "Error:") }, "Error: \n") ∧
    startsWithStr ("Error" ++ ": " ++ "") "Error:" = false := by
  refine ⟨by rfl, by decide⟩

/-- C7 amended: the normalized description is `trimEnd` of
`"<name>: <message>\n"` followed by exactly one indented line per stack frame
surviving the source-file filter (frames failing the filter contribute no
line); whenever at least one frame survives, the result does start with
`"<name>: <message>"` exactly. The third conjunct ties this shape to the
normalization step run on an Error-valued description. -/
theorem filog_c7_amended :
    (∀ (nm ms : String) (l : List StackFrame),
        rawDescription nm ms l = (nm ++ ": " ++ ms ++ "\n") ++ concatLines l)
  ∧ (∀ (nm ms : String) (f : StackFrame) (r : List StackFrame),
        startsWithStr (nm ++ ": " ++ ms) (jsTrimEnd (rawDescription nm ms (f :: r))) = true)
  ∧ (∀ (parse : String → List StackFrame) (e : ErrorPayload) (je : JsError) (st : String),
        e.errorDescription = some (.errD je) → je.stack = some st →
        normalizeStep parse e none =
          .ok ({ e with
                 errorDescription := some (.strD (jsTrimEnd
                   (rawDescription je.name je.message ((parse st).filter keepFrame)))) },
               rawDescription je.name je.message ((parse st).filter keepFrame))) := by
  refine ⟨rawDescription_eq, ?_, fun parse e je st hd hs => normalizeStep_errD hd hs⟩
  intro nm ms f r
  have hbr : ('[' : Char) ∈ (frameLine f).data := by
    unfold frameLine
    simp only [String.data_append, List.mem_append]
    exact Or.inl (Or.inl (Or.inl (Or.inl (Or.inl (Or.inl (by decide))))))
  have hmem : ('[' : Char) ∈ (concatLines (f :: r)).data := by
    show ('[' : Char) ∈ (frameLine f ++ concatLines r).data
    rw [String.data_append]
    exact List.mem_append_left _ hbr
  have hKey : (jsTrimEnd ((nm ++ ": " ++ ms ++ "\n") ++ concatLines (f :: r))).data
      = (nm ++ ": " ++ ms).data ++ jsTrimEndL ("\n".data ++ (concatLines (f :: r)).data) := by
    show jsTrimEndL (((nm ++ ": " ++ ms ++ "\n") ++ concatLines (f :: r)).data) = _
    simp only [String.data_append]
    rw [List.append_assoc]
    exact jsTrimEndL_append (List.mem_append_right _ hmem) (by decide)
  rw [rawDescription_eq]
  unfold startsWithStr
  rw [List.isPrefixOf_iff_prefix, hKey]
  exact List.prefix_append _ _

/-- C7 witness. -/
theorem filog_c7_witness :
    rawDescription "E" "m" [] = ("E" ++ ": " ++ "m" ++ "\n") ++ concatLines [] ∧
    startsWithStr ("E" ++ ": " ++ "m") (jsTrimEnd (rawDescription "E" "m" [c7Frame])) = true ∧
    normalizeStep (fun _ => [c7Frame]) c7Payload none =
      .ok ({ c7Payload with
             errorDescription := some (.strD (jsTrimEnd
               (rawDescription "E" "m" (List.filter keepFrame [c7Frame])))) },
           rawDescription "E" "m" (List.filter keepFrame [c7Frame])) :=
  ⟨filog_c7_amended.1 "E" "m" [],
   filog_c7_amended.2.1 "E" "m" c7Frame [],
   filog_c7_amended.2.2 (fun _ => [c7Frame]) c7Payload c7Err "raw-stack" rfl rfl⟩

/-- C8 counterexample: the url `https://e` matches the claim pattern
`^https?://` yet `write` takes neither dispatch path (the code tests the
full pattern, which needs two or more characters after the scheme). -/
theorem filog_c8_counterexample :
    claimHttpSchemeOnly "https://e" = true ∧
    writeModel parseNone c8Args c8Payload {} =
      { msgs := [], dispatches := [], threw := none } := by
  refine ⟨by decide, by decide⟩

/-- C8 amended: dispatch on the selected transport is governed by the full
patterns `^https?://[^\s/$.?#].[^\s]*$` (HTTP client construction and send)
and `^amqps?://[^\s/$.?#].[^\s]*$` (queue publish); a url matching neither,
such as `ftp://x/y` or the too-short `https://e`, dispatches nowhere, while
`https://x/y` takes the HTTP path and `amqp://x/y` the queue path. -/
theorem filog_c8_amended :
    (∀ (parse : String → List StackFrame) (args : FilogInitArguments) (e : ErrorPayload)
        (opts : WriteOptions) (ts : List FilogInitObject) (t : FilogInitObject)
        (rest : List FilogInitObject) (s : String),
        args.transports = some ts →
        selectTransports ts e.logLevel = t :: rest →
        e.errorDescription = some (.strD s) →
        opts.originalError = none →
        (writeModel parse args e opts).dispatches =
          (if httpUrlTest t.url then
            [Dispatch.http (mkHttpClient t.client_id t.url) (backfill args e)] else []) ++
          (if amqpUrlTest t.url then [Dispatch.queue t.url (backfill args e)] else []))
  ∧ httpUrlTest "https://x/y" = true ∧ amqpUrlTest "amqp://x/y" = true
  ∧ httpUrlTest "ftp://x/y" = false ∧ amqpUrlTest "ftp://x/y" = false ∧
    httpUrlTest "https://e" = false := by
  refine ⟨?_, by decide, by decide, by decide, by decide, by decide⟩
  intro parse args e opts ts t rest s hts hsel hd ho
  have hbd : (backfill args e).errorDescription = some (.strD s) := by
    rw [backfill_desc]
    exact hd
  have hn : normalizeStep parse (backfill args e) opts.originalError = .ok (backfill args e, s) := by
    rw [ho]
    exact normalizeStep_strD hbd
  rw [writeModel_dispatches_ok hts hn hsel]
  rfl

/-- C8 witness: an amqp transport dispatches on the queue path. -/
theorem filog_c8_witness :
    (writeModel parseNone c8WitArgs c8WitPayload {}).dispatches =
      (if httpUrlTest "amqp://mq.example.io/q" then
        [Dispatch.http (mkHttpClient "w8" "amqp://mq.example.io/q")
          (backfill c8WitArgs c8WitPayload)] else []) ++
      (if amqpUrlTest "amqp://mq.example.io/q" then
        [Dispatch.queue "amqp://mq.example.io/q" (backfill c8WitArgs c8WitPayload)] else []) :=
  filog_c8_amended.1 parseNone c8WitArgs c8WitPayload {}
    [{ client_id := "w8", url := "amqp://mq.example.io/q", logType := "ERROR" }]
    { client_id := "w8", url := "amqp://mq.example.io/q", logType := "ERROR" } [] "y"
    rfl (by decide) rfl rfl

/-- C9: each level method equals `write` with `logLevel` the method name
upper-cased, a fresh `logTicket` from the generator when no custom payload
is supplied, and `eventCode` equal to the supplied (truthy) event code, else
the error name. -/
theorem filog_c9_level_methods (parse : String → List StackFrame)
    (args : FilogInitArguments) (name : String) (err : JsError)
    (o : Option LoggingOptions) (uuid : String)
    (_hname : name ∈ ["debug", "error", "info", "warning"])
    (hpay : o.bind (fun x => x.payload) = none)
    (hec : ∀ c, o.bind (fun x => x.eventCode) = some c → ¬c = "") :
    levelMethodModel parse args name err o uuid =
      writeModel parse args
        { logLevel := jsToUpper name, logTicket := some uuid,
          errorDescription := some (.errD err),
          eventCode := some ((o.bind (fun x => x.eventCode)).getD err.name),
          environment := args.environment, source := args.source }
        { verbose := strOfPrintOut (o.bind (fun x => x.printOut)), originalError := some err } := by
  have he : jsOrStr (o.bind (fun x => x.eventCode)) err.name =
      (o.bind (fun x => x.eventCode)).getD err.name := by
    unfold jsOrStr
    cases hoc : o.bind (fun x => x.eventCode) with
    | none => rfl
    | some c =>
      have hc : ¬(c == "") = true := by
        simp only [beq_iff_eq]
        exact hec c hoc
      show (if (c == "") = true then err.name else c) = (some c).getD err.name
      rw [if_neg hc]
      rfl
  unfold levelMethodModel writePrivate
  rw [hpay, he]

/-- C9 witness: the `error` method with no options. -/
theorem filog_c9_witness :
    levelMethodModel parseNone c3Args "error" c9Err none "u-1" =
      writeModel parseNone c3Args
        { logLevel := jsToUpper "error", logTicket := some "u-1",
          errorDescription := some (.errD c9Err),
          eventCode := some ((Option.bind none (fun x : LoggingOptions => x.eventCode)).getD c9Err.name),
          environment := c3Args.environment, source := c3Args.source }
        { verbose := strOfPrintOut (Option.bind none (fun x : LoggingOptions => x.printOut)),
          originalError := some c9Err } :=
  filog_c9_level_methods parseNone c3Args "error" c9Err none "u-1"
    (by decide) rfl (fun c h => nomatch h)

end Filog
